import Mathlib

/-!
# Verification of `scripts/convert-pack-format.py`

A shallow embedding of the pack-format conversion script.  JSON values are
modelled by `JVal`; Python dicts are ordered association lists (CPython dicts
preserve insertion order), and the runtime failures the script can raise
(`TypeError`, `KeyError`, `AttributeError`) are modelled by `PyError` through
the `Except` monad.  The command-line entry point `main` is modelled by
`runMain`, which threads an explicit file system (a mapping from path strings
to parsed documents) and records the exit status, the written files and any
uncaught failure.
-/

set_option autoImplicit false

namespace PackConvert

/-- A JSON value as produced by Python's `json.load`: objects are ordered
association lists of string keys to values, mirroring CPython's
insertion-ordered dicts. -/
inductive JVal where
  | null
  | bool (b : Bool)
  | num (n : Int)
  | str (s : String)
  | arr (elems : List JVal)
  | obj (fields : List (String × JVal))
deriving Repr

/-- The kinds of runtime failure the script can raise.  `typeError` covers a
membership test on a non-iterable and indexing a sequence with a string (the
spec's MalformedSchemaEntry shapes); `keyError` is a failed dict subscript
(the spec's MissingRequiredField at the validation step); `attributeError`
is `.get` called on a non-dict document. -/
inductive PyError where
  | typeError
  | keyError (k : String)
  | attributeError
deriving Repr, DecidableEq

/-- First-match lookup in an ordered association list (Python `d[k]` /
`d.get(k)` on a dict; CPython dicts have unique keys, so first-match agrees
with dict lookup). -/
def jlookup : List (String × JVal) → String → Option JVal
  | [], _ => none
  | (k', v) :: rest, k => if k' = k then some v else jlookup rest k

/-- Key membership in an ordered association list (Python `k in d` for a
dict). -/
def containsKey : List (String × JVal) → String → Bool
  | [], _ => false
  | (k', _) :: rest, k => if k' = k then true else containsKey rest k

/-- Python equality of a JSON value against the string `k` (used by `k in
list`, which compares `k` with each element). -/
def eqStr (k : String) : JVal → Bool
  | .str s => s = k
  | _ => false

/-- Whether `pat` is a prefix of the second list. -/
def startsWithChars : List Char → List Char → Bool
  | [], _ => true
  | _ :: _, [] => false
  | x :: xs, y :: ys => x = y && startsWithChars xs ys

/-- Whether `pat` occurs as a contiguous sublist. -/
def occursIn (pat : List Char) : List Char → Bool
  | [] => pat.isEmpty
  | x :: rest => startsWithChars pat (x :: rest) || occursIn pat rest

/-- Whether the string `k` occurs as a substring of `s` (Python `k in s` for
strings). -/
def strContainsKey (s k : String) : Bool :=
  occursIn k.toList s.toList

/-- Python's membership test `k in schema` on an arbitrary JSON value:
key membership for dicts, element equality for lists, substring test for
strings, and a `TypeError` (argument not iterable) for every other value. -/
def jmem (k : String) : JVal → Except PyError Bool
  | .obj fields => .ok (containsKey fields k)
  | .arr elems => .ok (elems.any (eqStr k))
  | .str s => .ok (strContainsKey s k)
  | _ => .error .typeError

/-- JSON values on which Python's membership operator `in` raises
`TypeError` (argument not iterable): everything except dicts, lists and
strings. -/
def nonIterable : JVal → Bool
  | .null => true
  | .bool _ => true
  | .num _ => true
  | _ => false

/-- Python's subscript `schema[k]` with a string key: dict lookup (raising
`KeyError` when absent) for dicts, and a `TypeError` (indices must be
integers) for lists, strings and every other value. -/
def jindex (k : String) : JVal → Except PyError JVal
  | .obj fields =>
    match jlookup fields k with
    | some v => .ok v
    | none => .error (.keyError k)
  | _ => .error .typeError

/-- The body of the per-entry copy loop shared by the two converters
(`convert-pack-format.py` lines 29-34 and 53-60): for each allow-listed key
in order, test `k in schema` and, when the test succeeds, copy
`schema[k]`. -/
def extract_fields (allow : List String) (schema : JVal) :
    Except PyError (List (String × JVal)) :=
  match allow with
  | [] => .ok []
  | k :: rest => do
    let present ← jmem k schema
    if present then
      let v ← jindex k schema
      let tail ← extract_fields rest schema
      pure ((k, v) :: tail)
    else
      extract_fields rest schema

/-- One converted schema entry: `{"name": name}` extended with the
allow-listed fields present in the source value
(`convert-pack-format.py` lines 24-34 / 48-60). -/
def convert_schema_entry (allow : List String) (name : String) (schema : JVal) :
    Except PyError (List (String × JVal)) := do
  let extras ← extract_fields allow schema
  pure (("name", JVal.str name) :: extras)

/-- The conversion loop over a legacy mapping's entries, in iteration
order. -/
def convert_schemas_list (allow : List String) :
    List (String × JVal) → Except PyError (List JVal)
  | [] => .ok []
  | (name, schema) :: rest => do
    let fields ← convert_schema_entry allow name schema
    let tail ← convert_schemas_list allow rest
    pure (JVal.obj fields :: tail)

/-- Allow-listed keys for object type schemas. -/
def objAllow : List String := ["label", "description", "properties"]

/-- Allow-listed keys for relationship type schemas. -/
def relAllow : List String := ["label", "description", "sourceTypes", "targetTypes"]

/-- `convert_object_schemas` (`convert-pack-format.py` lines 17-38): a falsy
(empty) mapping yields `[]`; otherwise each entry is converted in order. -/
def convert_object_schemas (old_schemas : List (String × JVal)) :
    Except PyError (List JVal) :=
  if old_schemas.isEmpty then .ok []
  else convert_schemas_list objAllow old_schemas

/-- `convert_relationship_schemas` (`convert-pack-format.py` lines 41-64). -/
def convert_relationship_schemas (old_schemas : List (String × JVal)) :
    Except PyError (List JVal) :=
  if old_schemas.isEmpty then .ok []
  else convert_schemas_list relAllow old_schemas

/-- Python dict `get` with a default (`pack.get(k, dflt)`). -/
def dictGet (d : List (String × JVal)) (k : String) (dflt : JVal) : JVal :=
  match jlookup d k with
  | some v => v
  | none => dflt

/-- Python dict assignment `d[k] = v`: updates the value in place when the
key exists (keeping its position), appends the pair at the end otherwise. -/
def dictSet : List (String × JVal) → String → JVal → List (String × JVal)
  | [], k, v => [(k, v)]
  | (k', v') :: rest, k, v =>
    if k' = k then (k', v) :: rest else (k', v') :: dictSet rest k v

/-- The common shape of the two per-collection blocks of `convert_pack`
(read the field with default `{}`, convert when the value is a dict, leave
the document unchanged otherwise), used to reason about `convert_pack`
uniformly; `convert_pack` itself below is the direct transcription of the
source. -/
def convertField (key : String)
    (conv : List (String × JVal) → Except PyError (List JVal))
    (pack : List (String × JVal)) : Except PyError (List (String × JVal)) :=
  match dictGet pack key (JVal.obj []) with
  | .obj entries => do
    let converted ← conv entries
    pure (dictSet pack key (JVal.arr converted))
  | _ => pure pack

/-- The in-memory transformation performed by `convert_pack`
(`convert-pack-format.py` lines 74-87): for each of the two schema
collections, read the field with default `{}`; when the value is a dict
(the legacy shape, or the default for an absent field), replace the field
with the converted array; otherwise leave the document untouched
("already in array format").  File I/O and the progress prints around this
transformation are modelled in `runMain`. -/
def convert_pack (pack : List (String × JVal)) :
    Except PyError (List (String × JVal)) := do
  let pack1 ←
    match dictGet pack "object_type_schemas" (JVal.obj []) with
    | .obj entries => do
      let converted ← convert_object_schemas entries
      pure (dictSet pack "object_type_schemas" (JVal.arr converted))
    | _ => pure pack
  match dictGet pack1 "relationship_type_schemas" (JVal.obj []) with
  | .obj entries => do
    let converted ← convert_relationship_schemas entries
    pure (dictSet pack1 "relationship_type_schemas" (JVal.arr converted))
  | _ => pure pack1

/-! ## Path handling and the command-line entry point

`main` (`convert-pack-format.py` lines 97-119) uses `pathlib.Path`; paths are
modelled as strings and the `parent` / `stem` / `/` operations of CPython's
`pathlib` are given explicit definitions for ordinary relative paths. -/

/-- Split a character list at every occurrence of the separator `c`,
mirroring Python's `str.split(sep)` for a one-character separator. -/
def splitOnChar (c : Char) : List Char → List (List Char)
  | [] => [[]]
  | x :: xs =>
    match splitOnChar c xs with
    | [] => if x = c then [[], []] else [[x]]
    | y :: ys => if x = c then [] :: y :: ys else (x :: y) :: ys

/-- The `/`-separated components of a path string. -/
def pathComponents (p : String) : List (List Char) :=
  splitOnChar '/' p.toList

/-- The dot-separated pieces of a file name. -/
def nameParts (name : String) : List (List Char) :=
  splitOnChar '.' name.toList

/-- The final path component (`Path(p).name` for paths without a trailing
slash). -/
def lastComponent (p : String) : String :=
  match (pathComponents p).reverse with
  | [] => p
  | c :: _ => String.mk c

/-- `Path(p).parent`: the path with its last component removed; a bare file
name has parent `"."`. -/
def pathParent (p : String) : String :=
  match (pathComponents p).dropLast with
  | [] => "."
  | parts => String.intercalate "/" (parts.map String.mk)

/-- `Path(p).stem`: the final component without its last suffix; a name whose
only dot is the leading one (such as `.bashrc`) has no suffix. -/
def pathStem (p : String) : String :=
  let name := lastComponent p
  match nameParts name with
  | [] => name
  | [_] => name
  | [[], _] => name
  | parts => String.intercalate "." (parts.dropLast.map String.mk)

/-- `Path(p).suffix`: the last dot-suffix of the final component, empty when
there is none. -/
def pathSuffix (p : String) : String :=
  let name := lastComponent p
  match nameParts name with
  | [] => ""
  | [_] => ""
  | [[], _] => ""
  | parts => "." ++ String.mk (parts.getLastD [])

/-- `pathlib`'s `/` operator for the cases arising here: joining onto `"."`
drops the dot. -/
def pathJoin (a b : String) : String :=
  if a = "." then b else a ++ "/" ++ b

/-- The default output location computed by `main`
(`convert-pack-format.py` line 106):
`input_path.parent / f"{input_path.stem}-converted.json"` — note the literal
`.json` suffix. -/
def default_output_path (input_path : String) : String :=
  pathJoin (pathParent input_path) (pathStem input_path ++ "-converted.json")

/-- Modelled from the spec: the spec's stated default output location,
`<input-stem>-converted<input-suffix>` in the same directory as the input
(section 6, `output-path`).  Kept separate from `default_output_path`, which
is translated from the source, so the two can be compared. -/
def spec_default_output_path (input_path : String) : String :=
  pathJoin (pathParent input_path)
    (pathStem input_path ++ "-converted" ++ pathSuffix input_path)

/-- Python dict subscript `d[k]`, raising `KeyError` when the key is
absent. -/
def dictIndex (d : List (String × JVal)) (k : String) : Except PyError JVal :=
  match jlookup d k with
  | some v => .ok v
  | none => .error (.keyError k)

/-- The validation summary at the end of `main`
(`convert-pack-format.py` lines 115-119): subscripts `name`, `version`,
`object_type_schemas` and `relationship_type_schemas` in that order, raising
`KeyError` at the first absent field. -/
def validate (pack : List (String × JVal)) : Except PyError Unit := do
  let _ ← dictIndex pack "name"
  let _ ← dictIndex pack "version"
  let _ ← dictIndex pack "object_type_schemas"
  let _ ← dictIndex pack "relationship_type_schemas"
  pure ()

/-- The outcome of one run of the script: the process exit status (Python
exits with 1 both on `sys.exit(1)` and on an uncaught exception), the file
system after the run, the diagnostic lines printed by the two explicitly
checked error paths, and the uncaught failure if any.  Progress prints on
the success path are not modelled. -/
structure MainResult where
  exitCode : Nat
  fs : List (String × JVal)
  printed : List String
  uncaught : Option PyError
deriving Repr

/-- The usage line printed when no input path is supplied. -/
def usageMessage : String := "Usage: convert-pack-format.py <input.json> [output.json]"

/-- `main` (`convert-pack-format.py` lines 97-119) together with the file
I/O of `convert_pack` (lines 70-71 and 90-91).  `argv` is `sys.argv`
(program name first); the file system maps path strings to parsed JSON
documents, so `json.load` is a lookup and `json.dump` a `dictSet`.  Order of
operations follows the source: argument-count check, output-path default
(line 106), input-existence check, read, `.get`-based conversion (an
`AttributeError` when the document is not a dict), write, then the
validation summary — so validation failures happen after the write. -/
def runMain (argv : List String) (fs : List (String × JVal)) : MainResult :=
  match argv with
  | [] => ⟨1, fs, [usageMessage], none⟩
  | [_] => ⟨1, fs, [usageMessage], none⟩
  | _ :: input_path :: rest =>
    let output_path :=
      match rest with
      | out :: _ => out
      | [] => default_output_path input_path
    match jlookup fs input_path with
    | none => ⟨1, fs, ["Error: " ++ input_path ++ " not found"], none⟩
    | some (JVal.obj doc) =>
      match convert_pack doc with
      | .error e => ⟨1, fs, [], some e⟩
      | .ok converted =>
        let fs1 := dictSet fs output_path (JVal.obj converted)
        match validate converted with
        | .error e => ⟨1, fs1, [], some e⟩
        | .ok _ => ⟨0, fs1, [], none⟩
    | some _ => ⟨1, fs, [], some .attributeError⟩

/-! ## Basic lemmas -/

lemma ok_bind {α β : Type} (a : α) (f : α → Except PyError β) :
    (Except.ok a >>= f) = f a := rfl

lemma error_bind {α β : Type} (e : PyError) (f : α → Except PyError β) :
    ((Except.error e : Except PyError α) >>= f) = .error e := rfl

lemma pure_eq_ok {α : Type} (a : α) : (pure a : Except PyError α) = .ok a := rfl

lemma containsKey_eq_isSome (d : List (String × JVal)) (k : String) :
    containsKey d k = (jlookup d k).isSome := by
  induction d with
  | nil => rfl
  | cons p rest ih =>
    obtain ⟨k', v⟩ := p
    by_cases h : k' = k <;> simp [containsKey, jlookup, h, ih]

lemma jlookup_dictSet_self (d : List (String × JVal)) (k : String) (v : JVal) :
    jlookup (dictSet d k v) k = some v := by
  induction d with
  | nil => simp [dictSet, jlookup]
  | cons p rest ih =>
    obtain ⟨k', v'⟩ := p
    by_cases h : k' = k <;> simp [dictSet, jlookup, h, ih]

lemma jlookup_dictSet_ne (d : List (String × JVal)) (k k' : String) (v : JVal)
    (h : k' ≠ k) : jlookup (dictSet d k v) k' = jlookup d k' := by
  have h' : ¬ k = k' := fun hh => h hh.symm
  induction d with
  | nil => simp [dictSet, jlookup, h']
  | cons p rest ih =>
    obtain ⟨k'', v''⟩ := p
    by_cases hk : k'' = k
    · subst hk
      simp [dictSet, jlookup, h']
    · simp [dictSet, jlookup, hk, ih]

lemma extract_fields_obj (allow : List String) (src : List (String × JVal)) :
    extract_fields allow (JVal.obj src)
      = .ok (allow.filterMap fun k => (jlookup src k).map fun v => (k, v)) := by
  induction allow with
  | nil => rfl
  | cons k rest ih =>
    cases hl : jlookup src k with
    | none =>
      have hc : containsKey src k = false := by
        rw [containsKey_eq_isSome, hl]; rfl
      simp [extract_fields, jmem, hc, ok_bind, ih, hl]
    | some v =>
      have hc : containsKey src k = true := by
        rw [containsKey_eq_isSome, hl]; rfl
      simp [extract_fields, jmem, jindex, hc, hl, ok_bind, ih, pure_eq_ok]

lemma convert_pack_eq (pack : List (String × JVal)) :
    convert_pack pack
      = convertField "object_type_schemas" convert_object_schemas pack >>=
          fun pack1 =>
            convertField "relationship_type_schemas" convert_relationship_schemas pack1 := by
  cases hg : dictGet pack "object_type_schemas" (JVal.obj []) with
  | obj entries =>
    cases hc : convert_object_schemas entries with
    | error e => simp [convert_pack, convertField, hg, hc, error_bind, ok_bind, pure_eq_ok]
    | ok conv => simp [convert_pack, convertField, hg, hc, error_bind, ok_bind, pure_eq_ok]
  | null => simp [convert_pack, convertField, hg, ok_bind, pure_eq_ok]
  | bool b => simp [convert_pack, convertField, hg, ok_bind, pure_eq_ok]
  | num n => simp [convert_pack, convertField, hg, ok_bind, pure_eq_ok]
  | str s => simp [convert_pack, convertField, hg, ok_bind, pure_eq_ok]
  | arr l => simp [convert_pack, convertField, hg, ok_bind, pure_eq_ok]

lemma jlookup_filterMap_lookup (allow : List String) (src : List (String × JVal))
    (hnd : allow.Nodup) (k : String) :
    jlookup (allow.filterMap fun k' => (jlookup src k').map fun v => (k', v)) k
      = if k ∈ allow then jlookup src k else none := by
  induction allow with
  | nil => simp [jlookup]
  | cons a rest ih =>
    rw [List.nodup_cons] at hnd
    obtain ⟨hna, hnd'⟩ := hnd
    rw [List.filterMap_cons]
    cases hl : jlookup src a with
    | none =>
      simp only [hl, Option.map_none']
      rw [ih hnd']
      by_cases hk : k = a
      · subst hk
        simp [hna, hl]
      · simp [hk]
    | some v =>
      simp only [hl, Option.map_some']
      by_cases hk : a = k
      · subst hk
        simp [jlookup, hl]
      · have hk2 : ¬ k = a := fun hh => hk hh.symm
        simp [jlookup, hk, hk2, ih hnd']

lemma convert_schema_entry_obj (allow : List String) (name : String)
    (src : List (String × JVal)) :
    convert_schema_entry allow name (JVal.obj src)
      = .ok (("name", JVal.str name) ::
          (allow.filterMap fun k => (jlookup src k).map fun v => (k, v))) := by
  simp [convert_schema_entry, extract_fields_obj, ok_bind, pure_eq_ok]

lemma convert_schema_entry_ok (allow : List String) (name : String) (schema : JVal)
    (fields : List (String × JVal))
    (h : convert_schema_entry allow name schema = .ok fields) :
    ∃ extras, fields = ("name", JVal.str name) :: extras := by
  unfold convert_schema_entry at h
  cases he : extract_fields allow schema with
  | error e => rw [he, error_bind] at h; cases h
  | ok extras =>
    rw [he, ok_bind, pure_eq_ok] at h
    injection h with h
    exact ⟨extras, h.symm⟩

lemma convert_schemas_list_ok (allow : List String) (M : List (String × JVal))
    (res : List JVal) (h : convert_schemas_list allow M = .ok res) :
    res.length = M.length ∧
      ∀ (i : Nat) (name : String) (schema : JVal), M[i]? = some (name, schema) →
        ∃ fields, convert_schema_entry allow name schema = .ok fields ∧
          res[i]? = some (JVal.obj fields) := by
  induction M generalizing res with
  | nil =>
    rw [convert_schemas_list] at h
    injection h with h
    subst h
    simp
  | cons p rest ih =>
    obtain ⟨name, schema⟩ := p
    rw [convert_schemas_list] at h
    cases he : convert_schema_entry allow name schema with
    | error e => rw [he, error_bind] at h; cases h
    | ok fields =>
      rw [he, ok_bind] at h
      cases ht : convert_schemas_list allow rest with
      | error e => rw [ht, error_bind] at h; cases h
      | ok tail =>
        rw [ht, ok_bind, pure_eq_ok] at h
        injection h with h
        subst h
        obtain ⟨hlen, hidx⟩ := ih tail ht
        refine ⟨by simp [hlen], ?_⟩
        intro i nm sc hget
        cases i with
        | zero =>
          simp only [List.getElem?_cons_zero, Option.some.injEq] at hget
          obtain ⟨h1, h2⟩ := Prod.mk.injEq .. ▸ hget
          subst h1; subst h2
          exact ⟨fields, he, by simp⟩
        | succ j =>
          simp only [List.getElem?_cons_succ] at hget ⊢
          exact hidx j nm sc hget

lemma dictGet_eq (d : List (String × JVal)) (k : String) (dflt : JVal) :
    dictGet d k dflt = (jlookup d k).getD dflt := by
  unfold dictGet
  cases jlookup d k <;> rfl

lemma dictGet_obj (pack : List (String × JVal)) (key : String)
    (entries : List (String × JVal))
    (h : dictGet pack key (JVal.obj []) = JVal.obj entries) :
    jlookup pack key = some (JVal.obj entries)
      ∨ (jlookup pack key = none ∧ entries = []) := by
  rw [dictGet_eq] at h
  cases hl : jlookup pack key with
  | none =>
    rw [hl, Option.getD_none] at h
    right
    injection h with h
    exact ⟨rfl, h.symm⟩
  | some v =>
    rw [hl, Option.getD_some] at h
    left
    rw [h]

lemma convertField_ok (key : String)
    (F : List (String × JVal) → Except PyError (List JVal))
    (pack out : List (String × JVal)) (h : convertField key F pack = .ok out) :
    (∃ entries conv, dictGet pack key (JVal.obj []) = JVal.obj entries ∧
        F entries = .ok conv ∧ out = dictSet pack key (JVal.arr conv)) ∨
      ((∀ e, dictGet pack key (JVal.obj []) ≠ JVal.obj e) ∧ out = pack) := by
  revert h
  unfold convertField
  cases hg : dictGet pack key (JVal.obj [])
  case obj entries =>
    intro h
    have h2 : (F entries >>= fun converted =>
        (pure (dictSet pack key (JVal.arr converted)) : Except PyError _))
          = Except.ok out := h
    left
    cases hf : F entries with
    | error e => rw [hf, error_bind] at h2; cases h2
    | ok cv =>
      rw [hf, ok_bind, pure_eq_ok] at h2
      injection h2 with h2
      exact ⟨entries, cv, rfl, hf, h2.symm⟩
  all_goals
    intro h
    have h2 : (Except.ok pack : Except PyError (List (String × JVal)))
      = Except.ok out := h
    injection h2 with h2
    subst h2
    right
    exact ⟨fun e he => JVal.noConfusion he, rfl⟩


lemma converter_spec (allow : List String) (M : List (String × JVal))
    (res : List JVal)
    (h : (if M.isEmpty then Except.ok [] else convert_schemas_list allow M)
      = .ok res) :
    res.length = M.length ∧
      ∀ (i : Nat) (name : String) (schema : JVal), M[i]? = some (name, schema) →
        ∃ fields, convert_schema_entry allow name schema = .ok fields ∧
          res[i]? = some (JVal.obj fields) := by
  cases M with
  | nil =>
    simp only [List.isEmpty_nil, if_true] at h
    injection h with h
    subst h
    simp
  | cons p rest =>
    simp only [List.isEmpty_cons, if_false] at h
    exact convert_schemas_list_ok allow (p :: rest) res h

lemma entry_lookup_spec (allow : List String) (hnd : allow.Nodup)
    (M : List (String × JVal)) (res : List JVal) (i : Nat) (name : String)
    (src : List (String × JVal)) (hM : M[i]? = some (name, JVal.obj src))
    (h : (if M.isEmpty then Except.ok [] else convert_schemas_list allow M)
      = .ok res) :
    ∃ fields, res[i]? = some (JVal.obj fields) ∧
      jlookup fields "name" = some (JVal.str name) ∧
      ∀ k, k ≠ "name" →
        jlookup fields k = if k ∈ allow then jlookup src k else none := by
  obtain ⟨hlen, hidx⟩ := converter_spec allow M res h
  obtain ⟨fields, hf, hr⟩ := hidx i name (JVal.obj src) hM
  rw [convert_schema_entry_obj] at hf
  injection hf with hf
  subst hf
  refine ⟨_, hr, by simp [jlookup], ?_⟩
  intro k hk
  have hk2 : ¬ ("name" = k) := fun hh => hk hh.symm
  simp only [jlookup, if_neg hk2]
  exact jlookup_filterMap_lookup allow src hnd k

/-- C1: every element of `convert_object_schemas M` carries a `name` equal to
the key of the entry it came from, the output length equals the number of
keys, and the elements appear in `M`'s original iteration order (element `i`
comes from entry `i`). -/
theorem c1_key_name_preservation (M : List (String × JVal)) (res : List JVal)
    (h : convert_object_schemas M = .ok res) :
    res.length = M.length ∧
      ∀ (i : Nat) (name : String) (schema : JVal), M[i]? = some (name, schema) →
        ∃ fields, res[i]? = some (JVal.obj fields) ∧
          jlookup fields "name" = some (JVal.str name) := by
  obtain ⟨hlen, hidx⟩ := converter_spec objAllow M res h
  refine ⟨hlen, ?_⟩
  intro i name schema hget
  obtain ⟨fields, hf, hr⟩ := hidx i name schema hget
  obtain ⟨extras, hfe⟩ := convert_schema_entry_ok _ _ _ _ hf
  subst hfe
  exact ⟨("name", JVal.str name) :: extras, hr, by simp [jlookup]⟩

/-- Witness for C1 at a concrete two-entry legacy mapping. -/
theorem c1_key_name_preservation_witness :
    ([JVal.obj [("name", JVal.str "A")],
      JVal.obj [("name", JVal.str "B"), ("label", JVal.str "b")]] : List JVal).length
      = ([("A", JVal.obj []), ("B", JVal.obj [("label", JVal.str "b")])]
          : List (String × JVal)).length :=
  (c1_key_name_preservation
    [("A", JVal.obj []), ("B", JVal.obj [("label", JVal.str "b")])]
    [JVal.obj [("name", JVal.str "A")],
     JVal.obj [("name", JVal.str "B"), ("label", JVal.str "b")]] rfl).1

/-- C2: a converted element contains exactly the allow-listed fields present
in its source entry plus `name`, and no others: for an entry `(name, src)`
of the legacy mapping, looking up `name` in the converted element gives the
key, looking up an allow-listed key gives exactly its value in `src`, and
looking up any other key gives nothing; the allow-list is
`label`/`description`/`properties` for object schemas and
`label`/`description`/`sourceTypes`/`targetTypes` (no `properties`) for
relationship schemas. -/
theorem c2_field_allow_list (M : List (String × JVal)) (i : Nat) (name : String)
    (src : List (String × JVal)) (hM : M[i]? = some (name, JVal.obj src)) :
    (∀ res, convert_object_schemas M = .ok res →
      ∃ fields, res[i]? = some (JVal.obj fields) ∧
        jlookup fields "name" = some (JVal.str name) ∧
        ∀ k, k ≠ "name" →
          jlookup fields k = if k ∈ objAllow then jlookup src k else none) ∧
    (∀ res, convert_relationship_schemas M = .ok res →
      ∃ fields, res[i]? = some (JVal.obj fields) ∧
        jlookup fields "name" = some (JVal.str name) ∧
        ∀ k, k ≠ "name" →
          jlookup fields k = if k ∈ relAllow then jlookup src k else none) :=
  ⟨fun res h => entry_lookup_spec objAllow (by decide) M res i name src hM h,
   fun res h => entry_lookup_spec relAllow (by decide) M res i name src hM h⟩

/-- Witness for C2: an extra field `extra` of a concrete object schema entry
is dropped from the converted element. -/
theorem c2_field_allow_list_witness :
    jlookup [("name", JVal.str "Person"), ("label", JVal.str "L")] "extra"
      = none := by
  obtain ⟨fields, hr, hname, hk⟩ :=
    (c2_field_allow_list
      [("Person", JVal.obj [("label", JVal.str "L"), ("extra", JVal.num 5)])]
      0 "Person" [("label", JVal.str "L"), ("extra", JVal.num 5)] rfl).1
      [JVal.obj [("name", JVal.str "Person"), ("label", JVal.str "L")]] rfl
  have hfe : JVal.obj [("name", JVal.str "Person"), ("label", JVal.str "L")]
      = JVal.obj fields := by
    simpa using hr
  injection hfe with hfe
  rw [hfe]
  have h := hk "extra" (by decide)
  rw [if_neg (by decide)] at h
  exact h

/-- C6 counterexample: a legacy entry whose value is the (non-mapping)
empty sequence is converted silently to an element carrying only `name` —
no runtime failure is raised. -/
theorem c6_counterexample :
    convert_object_schemas [("T", JVal.arr [])]
      = .ok [JVal.obj [("name", JVal.str "T")]] := rfl

/-- C6 (amended): a legacy entry whose value is not a container — `null`, a
boolean or a number — makes both converters fail with a `TypeError` (the
MalformedSchemaEntry failure); sequence and string entries are instead
processed silently unless they contain an allow-listed key. -/
theorem c6_noniterable_entry_fails (name : String) (v : JVal)
    (rest : List (String × JVal)) (h : nonIterable v = true) :
    convert_object_schemas ((name, v) :: rest) = .error PyError.typeError ∧
      convert_relationship_schemas ((name, v) :: rest)
        = .error PyError.typeError := by
  cases v with
  | null => exact ⟨rfl, rfl⟩
  | bool b => exact ⟨rfl, rfl⟩
  | num n => exact ⟨rfl, rfl⟩
  | str s => simp [nonIterable] at h
  | arr l => simp [nonIterable] at h
  | obj l => simp [nonIterable] at h

/-- Witness for the amended C6 at a concrete `null` entry. -/
theorem c6_noniterable_entry_fails_witness :
    convert_object_schemas [("T", JVal.null)] = .error PyError.typeError :=
  (c6_noniterable_entry_fails "T" JVal.null [] rfl).1


/-- C3: when both schema collections are already sequences (current shape),
`convert_pack` returns the document unchanged — in particular both
collections are deep-equal to their input values. -/
theorem c3_idempotent_on_current_shape (pack : List (String × JVal))
    (xs ys : List JVal)
    (h1 : jlookup pack "object_type_schemas" = some (JVal.arr xs))
    (h2 : jlookup pack "relationship_type_schemas" = some (JVal.arr ys)) :
    convert_pack pack = .ok pack := by
  rw [convert_pack_eq]
  have g1 : convertField "object_type_schemas" convert_object_schemas pack
      = .ok pack := by
    unfold convertField
    rw [dictGet_eq, h1, Option.getD_some]
    rfl
  have g2 : convertField "relationship_type_schemas" convert_relationship_schemas pack
      = .ok pack := by
    unfold convertField
    rw [dictGet_eq, h2, Option.getD_some]
    rfl
  simp only [g1, ok_bind]
  exact g2

/-- Witness for C3 at a concrete current-shape document. -/
theorem c3_idempotent_on_current_shape_witness :
    convert_pack [("object_type_schemas", JVal.arr []),
        ("relationship_type_schemas", JVal.arr [])]
      = .ok [("object_type_schemas", JVal.arr []),
          ("relationship_type_schemas", JVal.arr [])] :=
  c3_idempotent_on_current_shape _ [] [] rfl rfl

/-- C4: `convert_pack` is a frame on every top-level field other than the two
schema collections — any other key's value in the returned document equals
its value in the input document. -/
theorem c4_frame_other_fields (pack out : List (String × JVal)) (k : String)
    (hk1 : k ≠ "object_type_schemas") (hk2 : k ≠ "relationship_type_schemas")
    (h : convert_pack pack = .ok out) :
    jlookup out k = jlookup pack k := by
  rw [convert_pack_eq] at h
  cases hs1 : convertField "object_type_schemas" convert_object_schemas pack with
  | error e => rw [hs1, error_bind] at h; cases h
  | ok pack1 =>
    simp only [hs1, ok_bind] at h
    have e1 : jlookup pack1 k = jlookup pack k := by
      rcases convertField_ok _ _ _ _ hs1 with ⟨entries, conv, _, _, hout⟩ | ⟨_, hout⟩
      · subst hout; exact jlookup_dictSet_ne _ _ _ _ hk1
      · rw [hout]
    have e2 : jlookup out k = jlookup pack1 k := by
      rcases convertField_ok _ _ _ _ h with ⟨entries, conv, _, _, hout⟩ | ⟨_, hout⟩
      · subst hout; exact jlookup_dictSet_ne _ _ _ _ hk2
      · rw [hout]
    rw [e2, e1]

/-- Witness for C4: the `name` field of a concrete document passes through
`convert_pack` unchanged. -/
theorem c4_frame_other_fields_witness :
    jlookup [("name", JVal.str "P"), ("object_type_schemas", JVal.arr []),
        ("relationship_type_schemas", JVal.arr [])] "name"
      = jlookup [("name", JVal.str "P")] "name" :=
  c4_frame_other_fields [("name", JVal.str "P")] _ "name"
    (by decide) (by decide) rfl

/-- C5: a schema collection that is absent from the document, or present as
the empty mapping, comes out of `convert_pack` as the empty sequence. -/
theorem c5_absence_normalization (pack out : List (String × JVal))
    (h : convert_pack pack = .ok out) :
    ((jlookup pack "object_type_schemas" = none ∨
        jlookup pack "object_type_schemas" = some (JVal.obj [])) →
      jlookup out "object_type_schemas" = some (JVal.arr [])) ∧
    ((jlookup pack "relationship_type_schemas" = none ∨
        jlookup pack "relationship_type_schemas" = some (JVal.obj [])) →
      jlookup out "relationship_type_schemas" = some (JVal.arr [])) := by
  rw [convert_pack_eq] at h
  cases hs1 : convertField "object_type_schemas" convert_object_schemas pack with
  | error e => rw [hs1, error_bind] at h; cases h
  | ok pack1 =>
    simp only [hs1, ok_bind] at h
    constructor
    · intro habs
      have hdg : dictGet pack "object_type_schemas" (JVal.obj [])
          = JVal.obj [] := by
        rcases habs with hn | hs
        · rw [dictGet_eq, hn]; rfl
        · rw [dictGet_eq, hs]; rfl
      have h1 : jlookup pack1 "object_type_schemas" = some (JVal.arr []) := by
        rcases convertField_ok _ _ _ _ hs1 with
          ⟨entries, conv, hg, hc, hout⟩ | ⟨hne, hout⟩
        · have he : JVal.obj entries = JVal.obj [] := by rw [← hg, hdg]
          injection he with he
          subst he
          have hcv : conv = [] := by
            rw [show convert_object_schemas [] = Except.ok ([] : List JVal)
              from rfl] at hc
            injection hc with hc
            exact hc.symm
          subst hout
          rw [hcv]
          exact jlookup_dictSet_self _ _ _
        · exact absurd hdg (hne [])
      rcases convertField_ok _ _ _ _ h with
        ⟨entries, conv, _, _, hout⟩ | ⟨_, hout⟩
      · subst hout
        rw [jlookup_dictSet_ne _ _ _ _ (by decide)]
        exact h1
      · rw [hout]; exact h1
    · intro habs
      have hpres : jlookup pack1 "relationship_type_schemas"
          = jlookup pack "relationship_type_schemas" := by
        rcases convertField_ok _ _ _ _ hs1 with
          ⟨entries, conv, _, _, hout⟩ | ⟨_, hout⟩
        · subst hout; exact jlookup_dictSet_ne _ _ _ _ (by decide)
        · rw [hout]
      have hdg : dictGet pack1 "relationship_type_schemas" (JVal.obj [])
          = JVal.obj [] := by
        rcases habs with hn | hs
        · rw [dictGet_eq, hpres, hn]; rfl
        · rw [dictGet_eq, hpres, hs]; rfl
      rcases convertField_ok _ _ _ _ h with
        ⟨entries, conv, hg, hc, hout⟩ | ⟨hne, hout⟩
      · have he : JVal.obj entries = JVal.obj [] := by rw [← hg, hdg]
        injection he with he
        subst he
        have hcv : conv = [] := by
          rw [show convert_relationship_schemas [] = Except.ok ([] : List JVal)
            from rfl] at hc
          injection hc with hc
          exact hc.symm
        subst hout
        rw [hcv]
        exact jlookup_dictSet_self _ _ _
      · exact absurd hdg (hne [])

/-- Witness for C5: converting the empty document yields empty sequences for
both collections. -/
theorem c5_absence_normalization_witness :
    jlookup [("object_type_schemas", JVal.arr []),
        ("relationship_type_schemas", JVal.arr [])] "object_type_schemas"
      = some (JVal.arr []) :=
  (c5_absence_normalization [] _ rfl).1 (Or.inl rfl)

/-- C10: a schema collection field that is present but not a mapping — of
any shape, including null, strings, numbers and sequences — takes the
"already in array format" branch and passes through `convert_pack`
completely unchanged. -/
theorem c10_non_mapping_passthrough (pack out : List (String × JVal))
    (h : convert_pack pack = .ok out) :
    (∀ v, jlookup pack "object_type_schemas" = some v →
      (∀ fields, v ≠ JVal.obj fields) →
      jlookup out "object_type_schemas" = some v) ∧
    (∀ v, jlookup pack "relationship_type_schemas" = some v →
      (∀ fields, v ≠ JVal.obj fields) →
      jlookup out "relationship_type_schemas" = some v) := by
  rw [convert_pack_eq] at h
  cases hs1 : convertField "object_type_schemas" convert_object_schemas pack with
  | error e => rw [hs1, error_bind] at h; cases h
  | ok pack1 =>
    simp only [hs1, ok_bind] at h
    constructor
    · intro v hv hnobj
      have hdg : dictGet pack "object_type_schemas" (JVal.obj []) = v := by
        rw [dictGet_eq, hv]; rfl
      have hp1 : pack1 = pack := by
        rcases convertField_ok _ _ _ _ hs1 with
          ⟨entries, conv, hg, _, _⟩ | ⟨_, hout⟩
        · exact absurd (hdg.symm.trans hg) (hnobj entries)
        · exact hout
      subst hp1
      rcases convertField_ok _ _ _ _ h with
        ⟨entries, conv, _, _, hout⟩ | ⟨_, hout⟩
      · subst hout
        rw [jlookup_dictSet_ne _ _ _ _ (by decide)]
        exact hv
      · rw [hout]; exact hv
    · intro v hv hnobj
      have hpres : jlookup pack1 "relationship_type_schemas" = some v := by
        rcases convertField_ok _ _ _ _ hs1 with
          ⟨entries, conv, _, _, hout⟩ | ⟨_, hout⟩
        · subst hout
          rw [jlookup_dictSet_ne _ _ _ _ (by decide)]
          exact hv
        · rw [hout]; exact hv
      have hdg : dictGet pack1 "relationship_type_schemas" (JVal.obj [])
          = v := by
        rw [dictGet_eq, hpres]; rfl
      rcases convertField_ok _ _ _ _ h with
        ⟨entries, conv, hg, _, _⟩ | ⟨_, hout⟩
      · exact absurd (hdg.symm.trans hg) (hnobj entries)
      · rw [hout]; exact hpres

/-- Witness for C10 at a concrete document whose collections are null and a
string. -/
theorem c10_non_mapping_passthrough_witness :
    jlookup [("object_type_schemas", JVal.null),
        ("relationship_type_schemas", JVal.str "x")] "object_type_schemas"
      = some JVal.null :=
  (c10_non_mapping_passthrough
    [("object_type_schemas", JVal.null), ("relationship_type_schemas", JVal.str "x")]
    [("object_type_schemas", JVal.null), ("relationship_type_schemas", JVal.str "x")]
    rfl).1 JVal.null rfl (fun _ hf => JVal.noConfusion hf)


/-- C7: with no input argument, or with an input path that does not exist in
the file system, the run exits with status 1, prints a diagnostic (the usage
line, or a message naming the missing path), raises nothing, and leaves the
file system untouched — no output file is created. -/
theorem c7_missing_input_no_write (fs : List (String × JVal))
    (prog input_path : String) (rest : List String)
    (h : jlookup fs input_path = none) :
    runMain [] fs = ⟨1, fs, [usageMessage], none⟩ ∧
    runMain [prog] fs = ⟨1, fs, [usageMessage], none⟩ ∧
    runMain (prog :: input_path :: rest) fs
      = ⟨1, fs, ["Error: " ++ input_path ++ " not found"], none⟩ := by
  refine ⟨rfl, rfl, ?_⟩
  simp only [runMain, h]

/-- Witness for C7 on an empty file system. -/
theorem c7_missing_input_no_write_witness :
    runMain ["convert-pack-format.py", "missing.json"] []
      = ⟨1, [], ["Error: " ++ "missing.json" ++ " not found"], none⟩ :=
  (c7_missing_input_no_write [] "convert-pack-format.py" "missing.json" [] rfl).2.2

/-- C8 counterexample: for the input path `dir/pack.yaml` the code's default
output location is `dir/pack-converted.json` — the literal `.json` of line
106 — while the spec's `<input-stem>-converted<input-suffix>` rule would
give `dir/pack-converted.yaml`; the two disagree. -/
theorem c8_counterexample :
    default_output_path "dir/pack.yaml" = "dir/pack-converted.json" ∧
    spec_default_output_path "dir/pack.yaml" = "dir/pack-converted.yaml" ∧
    default_output_path "dir/pack.yaml"
      ≠ spec_default_output_path "dir/pack.yaml" :=
  ⟨rfl, rfl, by decide⟩

/-- C8 (amended): when the output path is omitted, the output is written to
`<input-stem>-converted.json` in the input's directory — the suffix is the
literal `.json`, not the input's own suffix. -/
theorem c8_default_output_json (fs : List (String × JVal)) (prog p : String)
    (doc pack' : List (String × JVal))
    (h1 : jlookup fs p = some (JVal.obj doc))
    (h2 : convert_pack doc = .ok pack') :
    (runMain [prog, p] fs).fs
      = dictSet fs (pathJoin (pathParent p) (pathStem p ++ "-converted.json"))
          (JVal.obj pack') := by
  simp only [runMain, h1, h2, default_output_path]
  cases validate pack' <;> rfl

/-- Witness for the amended C8: a `.txt` input is written to a `.json`
default output. -/
theorem c8_default_output_json_witness :
    (runMain ["convert-pack-format.py", "in.txt"] [("in.txt", JVal.obj [])]).fs
      = dictSet [("in.txt", JVal.obj [])]
          (pathJoin (pathParent "in.txt") (pathStem "in.txt" ++ "-converted.json"))
          (JVal.obj [("object_type_schemas", JVal.arr []),
            ("relationship_type_schemas", JVal.arr [])]) :=
  c8_default_output_json _ _ _ [] _ rfl rfl

/-- C9: the write precedes the validation summary — when the input document
converts successfully but the converted document fails the summary's field
accesses, the run terminates with that uncaught `KeyError` and exit status
1, while the output location already holds the converted document. -/
theorem c9_write_before_validation (fs : List (String × JVal))
    (prog inp outp : String) (doc pack' : List (String × JVal)) (e : PyError)
    (h1 : jlookup fs inp = some (JVal.obj doc))
    (h2 : convert_pack doc = .ok pack')
    (h3 : validate pack' = .error e) :
    (runMain [prog, inp, outp] fs).uncaught = some e ∧
    (runMain [prog, inp, outp] fs).exitCode = 1 ∧
    jlookup (runMain [prog, inp, outp] fs).fs outp = some (JVal.obj pack') := by
  simp only [runMain, h1, h2, h3]
  exact ⟨trivial, trivial, jlookup_dictSet_self _ _ _⟩

/-- Witness for C9: a document with no `name` field is still written to the
output location even though the run fails at the summary. -/
theorem c9_write_before_validation_witness :
    jlookup (runMain ["convert-pack-format.py", "in.json", "out.json"]
        [("in.json", JVal.obj [("version", JVal.str "1")])]).fs "out.json"
      = some (JVal.obj [("version", JVal.str "1"),
          ("object_type_schemas", JVal.arr []),
          ("relationship_type_schemas", JVal.arr [])]) :=
  (c9_write_before_validation [("in.json", JVal.obj [("version", JVal.str "1")])]
    "convert-pack-format.py" "in.json" "out.json"
    [("version", JVal.str "1")]
    [("version", JVal.str "1"), ("object_type_schemas", JVal.arr []),
     ("relationship_type_schemas", JVal.arr [])]
    (PyError.keyError "name") rfl rfl rfl).2.2

end PackConvert
